import Mathlib

/-!
Verification of the QuickTone request-orchestration layer.

Shallow embedding of the Python sources:
  * `app/services/cache.py`       — `MemoryCache` (LRU + TTL key/value cache)
  * `app/services/sentiment_manager.py` — `SentimentManager.analyze` / `analyze_batch`
  * `app/api/deps.py`             — `RateLimiter` and its bucket-id derivation

Modelling conventions:
  * Python `float` time values and token counts are modelled as `ℚ`
    (exact arithmetic; all claims are arithmetic/ordering facts that do not
    depend on rounding of IEEE doubles).
  * `dict` / `OrderedDict` are modelled as association lists in insertion
    order (head = oldest = least-recently used, `popitem(last=False)` pops
    the head).  Dict keys are unique, so removing every binding of a key
    equals removing the one binding.
  * `blake2b` digests: the digest is a fixed deterministic function of the
    byte string fed to it, so we identify a key with that serialized byte
    string.  Equal serializations give equal digests; distinct digests come
    only from distinct serializations, and collisions between distinct
    serializations are exactly the "cryptographic-hash collision" caveat of
    the spec.
  * Fallible Python code (`raise` / `except`) is modelled with `Except`.
-/

set_option autoImplicit false

namespace QuickTone

/-- Python `int(x)` on a real: truncation toward zero. -/
def pyInt (q : ℚ) : ℤ :=
  if 0 ≤ q then ⌊q⌋ else ⌈q⌉

/-- `TaskType = Literal["sentiment", "emotion"]` from `app/models/types.py`. -/
inductive TaskType where
  | sentiment
  | emotion
deriving DecidableEq, Repr

/-- The literal string carried by a `TaskType` value. -/
def TaskType.toStr : TaskType → String
  | .sentiment => "sentiment"
  | .emotion => "emotion"

/-- `SentimentResponse` from `app/models/schema.py` (the optional `text`
echo field is never set by the manager and is omitted). `confidence` is a
Python float, modelled as `ℚ`; `processing_time_ms` is an `int`. -/
structure SentimentResponse where
  model : String
  sentiment : String
  confidence : ℚ
  processing_time_ms : ℤ
  task_type : TaskType
deriving DecidableEq, Repr

/-- `SentimentRequest` from `app/models/schema.py`.  The `threshold` float is
only ever observed through its `"%.10g"` rendering inside the cache-key
function, so the request carries the rational value and the rendering is a
parameter (`fmt`) of the definitions that need it. -/
structure SentimentRequest where
  text : String
  model : Option String
  task_type : TaskType
  threshold : Option ℚ
deriving DecidableEq, Repr

/-- `BatchSentimentRequest` from `app/models/schema.py`. -/
structure BatchSentimentRequest where
  texts : List String
  model : Option String
  task_type : TaskType
  threshold : Option ℚ
deriving DecidableEq, Repr

/-- `BatchSentimentResponse` from `app/models/schema.py`. -/
structure BatchSentimentResponse where
  results : List SentimentResponse
  total_processing_time_ms : ℤ
  items_processed : ℕ
deriving DecidableEq, Repr

/-- The settings fields of `app/core/config.py` used by the claims. -/
structure Settings where
  MODEL_DEFAULT : String
  GRACEFUL_DEGRADATION : Bool
  BATCH_SIZE_LIMIT : ℕ
  TEXT_LENGTH_LIMIT : ℕ
  RATE_LIMIT_ENABLED : Bool
deriving Repr

/-! ### Cache-key serialization (`MemoryCache.hash_text` / `hash_texts`)

`hash_text` feeds `model | task_type | thr=<marker> | text` to `blake2b`,
where `<marker>` is `"none"` when the threshold is absent and its `"%.10g"`
rendering otherwise.  We identify the key with the serialized string (see
the module docstring) and keep the float rendering abstract as `fmt`. -/

/-- The threshold marker string: `"none" if threshold is None else
f"{threshold:.10g}"` with `fmt` standing for the `"%.10g"` rendering. -/
def thrMarker (fmt : ℚ → String) : Option ℚ → String
  | none => "none"
  | some q => fmt q

/-- The byte string `MemoryCache.hash_text` digests, with the threshold
marker already rendered. -/
def hashTextInput (model task_type thrStr text : String) : String :=
  model ++ "|" ++ task_type ++ "|" ++ "thr=" ++ thrStr ++ "|" ++ text

/-- `MemoryCache.hash_text(model, task_type, text, threshold)`, as the
serialized byte string fed to `blake2b`. -/
def hash_text (fmt : ℚ → String) (model task_type text : String)
    (threshold : Option ℚ) : String :=
  hashTextInput model task_type (thrMarker fmt threshold) text

/-- The per-item segment of `MemoryCache.hash_texts`:
`str(len(t)) ++ ":" ++ t ++ "|"` folded over the items in order. -/
def hashTextsItems (texts : List String) : String :=
  texts.foldl (fun acc t => acc ++ toString t.length ++ ":" ++ t ++ "|") ""

/-- `MemoryCache.hash_texts(model, task_type, texts, threshold)`, as the
serialized byte string fed to `blake2b`. -/
def hash_texts (fmt : ℚ → String) (model task_type : String)
    (texts : List String) (threshold : Option ℚ) : String :=
  model ++ "|" ++ task_type ++ "|" ++ "thr=" ++ thrMarker fmt threshold ++ "|"
    ++ hashTextsItems texts ++ "n=" ++ toString texts.length

/-! ### `MemoryCache` (`app/services/cache.py`)

The `OrderedDict` store is an association list `key ↦ (timestamp, value)` in
insertion order: head = least recently used. -/

/-- `self._store.get(key)`: first binding of `key` (bindings are unique). -/
def lookupStore {K V : Type} [DecidableEq K] (k : K) :
    List (K × ℚ × V) → Option (ℚ × V)
  | [] => none
  | (k', ts, v) :: rest => if k' = k then some (ts, v) else lookupStore k rest

/-- `self._store.pop(key)`: drop the binding(s) of `key` (unique in a dict). -/
def eraseKey {K V : Type} [DecidableEq K] (k : K) :
    List (K × ℚ × V) → List (K × ℚ × V)
  | [] => []
  | (k', ts, v) :: rest =>
      if k' = k then eraseKey k rest else (k', ts, v) :: eraseKey k rest

/-- `MemoryCache._evict_if_needed`: `while len(store) > max_size:
store.popitem(last=False)` — drop from the front until the size bound holds. -/
def evictLoop {E : Type} (maxSize : ℕ) : List E → List E
  | [] => []
  | x :: rest =>
      if maxSize < (x :: rest).length then evictLoop maxSize rest else x :: rest

/-- `MemoryCache` state: `max_size`, normalized `ttl`, the ordered store and
the hit/miss counters of `CacheStats`. -/
structure MemoryCache (K V : Type) where
  max_size : ℕ
  ttl : Option ℚ
  store : List (K × ℚ × V)
  hits : ℕ
  misses : ℕ
deriving Repr, DecidableEq

/-- `MemoryCache.__init__`: `self.ttl = ttl_seconds if ttl_seconds and
ttl_seconds > 0 else None` (so `0`/negative/absent all normalize to `None`),
empty store, zeroed stats. -/
def MemoryCache.mk' (K V : Type) (max_size : ℕ) (ttl_seconds : Option ℤ) :
    MemoryCache K V :=
  { max_size := max_size
    ttl := match ttl_seconds with
      | none => none
      | some t => if 0 < t then some (t : ℚ) else none
    store := []
    hits := 0
    misses := 0 }

/-- `MemoryCache.get(key)` at wall-clock time `now` (`time.time()`).
Returns the Python return value and the mutated cache. -/
def MemoryCache.get {K V : Type} [DecidableEq K] (c : MemoryCache K V)
    (now : ℚ) (key : K) : Option V × MemoryCache K V :=
  match lookupStore key c.store with
  | none => (none, { c with misses := c.misses + 1 })
  | some (ts, v) =>
    match c.ttl with
    | some ttl =>
      if ttl < now - ts then
        -- expired: pop, count a miss
        (none, { c with store := eraseKey key c.store, misses := c.misses + 1 })
      else
        -- refresh LRU position, keep the stored timestamp
        (some v, { c with store := eraseKey key c.store ++ [(key, ts, v)],
                          hits := c.hits + 1 })
    | none =>
        (some v, { c with store := eraseKey key c.store ++ [(key, ts, v)],
                          hits := c.hits + 1 })

/-- `MemoryCache.set(key, value)` at wall-clock time `now` (`time.time()`). -/
def MemoryCache.set {K V : Type} [DecidableEq K] (c : MemoryCache K V)
    (now : ℚ) (key : K) (v : V) : MemoryCache K V :=
  let store1 := if (lookupStore key c.store).isSome then eraseKey key c.store
                else c.store
  { c with store := evictLoop c.max_size (store1 ++ [(key, now, v)]) }

/-! ### `SentimentManager` (`app/services/sentiment_manager.py`)

The concrete backend services (`VaderService`, `DistilBertService`) are
external collaborators; a dispatch is modelled by an oracle
`bk modelId taskStr text = (label, confidence, elapsed_ms)` or an error. -/

/-- Backend oracle: `svc.analyze(text, task_type)` for the service selected
by the model id. -/
abbrev BackendFn := String → String → String → Except String (String × ℚ × ℤ)

/-- Native-batch oracle: `svc.analyze_batch(texts, task_type)` returning the
ordered `(label, confidence)` pairs and the total elapsed ms. -/
abbrev BatchFn := String → String → List String → Except String (List (String × ℚ) × ℤ)

/-- Python `str.lower()`, modelled character by character (the backend
identifiers involved are ASCII). -/
def lowerStr (s : String) : String :=
  ⟨s.data.map Char.toLower⟩

/-- `SentimentManager._select_backend`:
`(model or self._settings.MODEL_DEFAULT).lower()`. -/
def selectBackend (st : Settings) (model : Option String) : String :=
  lowerStr (model.getD st.MODEL_DEFAULT)

/-- `SentimentManager._analyze_with_model`: dispatch on the resolved backend
id.  The vader branch always forces `task_type="sentiment"`; the DistilBERT
branches pass the request task mode through; an unknown id raises
`ValueError`. -/
def analyzeWithModel (bk : BackendFn) (model_choice text : String)
    (task_type : TaskType) : Except String SentimentResponse :=
  if model_choice = "vader" then
    match bk "vader" "sentiment" text with
    | .error e => .error e
    | .ok (l, c, ms) => .ok ⟨"vader", l, c, ms, .sentiment⟩
  else if model_choice = "distilbert" then
    match bk "distilbert" task_type.toStr text with
    | .error e => .error e
    | .ok (l, c, ms) => .ok ⟨"distilbert", l, c, ms, task_type⟩
  else if model_choice = "distilbert-sst-2" then
    match bk "distilbert-sst-2" task_type.toStr text with
    | .error e => .error e
    | .ok (l, c, ms) => .ok ⟨"distilbert-sst-2", l, c, ms, task_type⟩
  else
    .error ("Unknown model: " ++ model_choice)

/-- The `try/except` body of `SentimentManager.analyze`: primary dispatch,
and on any exception a single retry against vader with task mode forced to
`"sentiment"` when `GRACEFUL_DEGRADATION` is set and the resolved backend is
not already vader; the fallback's own failure propagates, and otherwise the
original error propagates. -/
def dispatchWithFallback (st : Settings) (bk : BackendFn)
    (model_choice text : String) (task_type : TaskType) :
    Except String SentimentResponse :=
  match analyzeWithModel bk model_choice text task_type with
  | .ok r => .ok r
  | .error e =>
    if st.GRACEFUL_DEGRADATION = true ∧ model_choice ≠ "vader" then
      match bk "vader" "sentiment" text with
      | .error e2 => .error e2
      | .ok (l, c, ms) => .ok ⟨"vader", l, c, ms, .sentiment⟩
    else .error e

/-- `SentimentManager.analyze`.  `cache` is `self._cache` (`None` when the
cache backend is disabled); `tGet`/`tSet` are the `time.time()` readings
inside `cache.get` and `cache.set`; `fmt` renders threshold floats
(`"%.10g"`).  Returns the response together with the cache state after the
call. -/
def analyze (st : Settings) (fmt : ℚ → String) (bk : BackendFn)
    (cache : Option (MemoryCache String SentimentResponse)) (tGet tSet : ℚ)
    (req : SentimentRequest) :
    Except String (SentimentResponse × Option (MemoryCache String SentimentResponse)) :=
  let model_choice := selectBackend st req.model
  match cache with
  | none =>
    match dispatchWithFallback st bk model_choice req.text req.task_type with
    | .error e => .error e
    | .ok r => .ok (r, none)
  | some c =>
    let key := hash_text fmt model_choice req.task_type.toStr req.text req.threshold
    match c.get tGet key with
    | (some hit, c1) => .ok (hit, some c1)
    | (none, c1) =>
      match dispatchWithFallback st bk model_choice req.text req.task_type with
      | .error e => .error e
      | .ok r => .ok (r, some (c1.set tSet key r))

/-- Outcome of `SentimentManager.analyze_batch`: the returned value or
error, both cache states after the call, the native batch dispatches issued
(each carrying the text list passed to `svc.analyze_batch`), and the number
of per-item `analyze` calls made by the fan-out path. -/
structure BatchOutcome where
  result : Except String BatchSentimentResponse
  cache : Option (MemoryCache String SentimentResponse)
  bcache : Option (MemoryCache String BatchSentimentResponse)
  batchDispatches : List (List String)
  perItemCalls : ℕ

/-- The fan-out branch of `analyze_batch`: one `analyze` per text.  The
Python code runs these under `asyncio.gather` with a semaphore and collects
results in input order; a cooperative event loop interleaves the cache
effects, modelled here as input-order sequencing.  A raised per-item error
propagates out of the gather. -/
def fanoutLoop (st : Settings) (fmt : ℚ → String) (bk : BackendFn)
    (cache : Option (MemoryCache String SentimentResponse)) (tGet tSet : ℚ)
    (req : BatchSentimentRequest) :
    List String →
    Except String (List SentimentResponse × Option (MemoryCache String SentimentResponse) × ℕ)
  | [] => .ok ([], cache, 0)
  | t :: rest =>
    match analyze st fmt bk cache tGet tSet
        ⟨t, req.model, req.task_type, req.threshold⟩ with
    | .error e => .error e
    | .ok (r, cache1) =>
      match fanoutLoop st fmt bk cache1 tGet tSet req rest with
      | .error e => .error e
      | .ok (rs, cache2, n) => .ok (r :: rs, cache2, n + 1)

/-- The per-item response built by the native batch path (the list
comprehension of `analyze_batch`): every item shares the evenly divided
`per_item_ms`. -/
def nativeItem (model_choice : String) (task : TaskType) (per_item_ms : ℤ)
    (p : String × ℚ) : SentimentResponse :=
  ⟨model_choice, p.1, p.2, per_item_ms, task⟩

/-- The dispatch half of `analyze_batch` (after validation and the
batch-cache miss): native HF batch path for the DistilBERT ids, per-item
fan-out otherwise.  `wallMs` is the measured wall-clock time
`int((perf_counter() - start) * 1000)` of the fan-out span. -/
def analyzeBatchDispatch (st : Settings) (fmt : ℚ → String) (bk : BackendFn)
    (batchFn : BatchFn) (cache : Option (MemoryCache String SentimentResponse))
    (bcache : Option (MemoryCache String BatchSentimentResponse))
    (ckey : Option String) (tGet tSet : ℚ) (wallMs : ℤ)
    (req : BatchSentimentRequest) (model_choice : String) : BatchOutcome :=
  -- line 131: `model_choice = model_choice.lower()` (re-lowering, a no-op
  -- on the already lowered `_select_backend` result)
  let mc := lowerStr model_choice
  if mc = "distilbert" ∨ mc = "distilbert-sst-2" then
    match batchFn mc req.task_type.toStr req.texts with
    | .error e =>
      { result := .error e, cache := cache, bcache := bcache,
        batchDispatches := [req.texts], perItemCalls := 0 }
    | .ok (labels_confs, total_ms) =>
      let per_item_ms : ℤ :=
        max 1 (pyInt ((total_ms : ℚ) / (max 1 labels_confs.length : ℕ)))
      let results : List SentimentResponse :=
        labels_confs.map (nativeItem mc req.task_type per_item_ms)
      let resp : BatchSentimentResponse := ⟨results, total_ms, results.length⟩
      let bcache' := match bcache, ckey with
        | some bc, some k => some (bc.set tSet k resp)
        | b, _ => b
      { result := .ok resp, cache := cache, bcache := bcache',
        batchDispatches := [req.texts], perItemCalls := 0 }
  else
    match fanoutLoop st fmt bk cache tGet tSet req req.texts with
    | .error e =>
      { result := .error e, cache := cache, bcache := bcache,
        batchDispatches := [], perItemCalls := 0 }
    | .ok (results, cache', n) =>
      let resp : BatchSentimentResponse := ⟨results, wallMs, results.length⟩
      let bcache' := match bcache, ckey with
        | some bc, some k => some (bc.set tSet k resp)
        | b, _ => b
      { result := .ok resp, cache := cache', bcache := bcache',
        batchDispatches := [], perItemCalls := n }

/-- `SentimentManager.analyze_batch`: batch-size and per-item length
validation, batch-cache lookup, then dispatch. -/
def analyzeBatch (st : Settings) (fmt : ℚ → String) (bk : BackendFn)
    (batchFn : BatchFn) (cache : Option (MemoryCache String SentimentResponse))
    (bcache : Option (MemoryCache String BatchSentimentResponse))
    (tGet tSet : ℚ) (wallMs : ℤ) (req : BatchSentimentRequest) : BatchOutcome :=
  let texts := req.texts
  if st.BATCH_SIZE_LIMIT < texts.length then
    { result := .error ("Batch size " ++ toString texts.length
        ++ " exceeds limit " ++ toString st.BATCH_SIZE_LIMIT ++ "."),
      cache := cache, bcache := bcache, batchDispatches := [], perItemCalls := 0 }
  else if texts.any (fun t => st.TEXT_LENGTH_LIMIT < t.length) then
    { result := .error "Text too long",
      cache := cache, bcache := bcache, batchDispatches := [], perItemCalls := 0 }
  else
    let model_choice := selectBackend st req.model
    match bcache with
    | some bc =>
      let ckey := hash_texts fmt model_choice req.task_type.toStr texts req.threshold
      match bc.get tGet ckey with
      | (some hit, bc1) =>
        { result := .ok hit, cache := cache, bcache := some bc1,
          batchDispatches := [], perItemCalls := 0 }
      | (none, bc1) =>
        analyzeBatchDispatch st fmt bk batchFn cache (some bc1) (some ckey)
          tGet tSet wallMs req model_choice
    | none =>
      analyzeBatchDispatch st fmt bk batchFn cache none none
        tGet tSet wallMs req model_choice

/-! ### `RateLimiter` (`app/api/deps.py`) -/

/-- `RateLimiter._bucket_id`.  `apiKey` is `get_api_key(request)` and
`client` the peer address (`request.client.host` when `request.client` is
set).  The Python line
`key = get_api_key(request) or request.client.host if request.client else "anon"`
parses as `(get_api_key(request) or request.client.host) if request.client
else "anon"`: the conditional binds last, so a missing peer yields `"anon"`
even when an API key is declared. -/
def bucketId (apiKey : Option String) (client : Option String) : String :=
  match client with
  | some host =>
    match apiKey with
    | some k => k
    | none => host
  | none => "anon"

/-- `RateLimiter` state: capacity/refill rate `rps` and the per-bucket
`allowance` dict `bucket ↦ (tokens, last_refill)`. -/
structure RateLimiter where
  rps : ℚ
  allowance : List (String × ℚ × ℚ)
deriving Repr

/-- `self.allowance[bucket] = entry`: dict assignment (replace in place or
append a new binding). -/
def updateAllowance (bucket : String) (entry : ℚ × ℚ) :
    List (String × ℚ × ℚ) → List (String × ℚ × ℚ)
  | [] => [(bucket, entry)]
  | (b, e) :: rest =>
      if b = bucket then (b, entry) :: rest
      else (b, e) :: updateAllowance bucket entry rest

/-- The refill of `RateLimiter.check`:
`tokens, last = self.allowance.get(bucket, (self.rps, now))` followed by
`tokens = min(self.rps, tokens + (now - last) * self.rps)`. -/
def refillTokens (rl : RateLimiter) (bucket : String) (now : ℚ) : ℚ :=
  min rl.rps (((lookupStore bucket rl.allowance).getD (rl.rps, now)).1 +
    (now - ((lookupStore bucket rl.allowance).getD (rl.rps, now)).2) * rl.rps)

/-- `RateLimiter.check` for an already-derived bucket id at time `now`
(`time.time()`), with `enabled = settings.RATE_LIMIT_ENABLED`.  The raised
`HTTP 429` is `.error retryAfter` (the `Retry-After` header value); the
second component is the limiter state after the call (the reject raises
before the `self.allowance[bucket] = ...` assignment). -/
def RateLimiter.check (rl : RateLimiter) (enabled : Bool) (bucket : String)
    (now : ℚ) : Except ℤ Unit × RateLimiter :=
  if enabled = false then (.ok (), rl)
  else if refillTokens rl bucket now < 1 then
    (.error (max 1 (pyInt (1 - refillTokens rl bucket now))), rl)
  else
    (.ok (),
      { rl with
          allowance :=
            updateAllowance bucket (refillTokens rl bucket now - 1, now) rl.allowance })

/-! ### Helper lemmas about the store model -/

section StoreLemmas

variable {K V : Type} [DecidableEq K]

lemma lookupStore_eraseKey_self (k : K) (l : List (K × ℚ × V)) :
    lookupStore k (eraseKey k l) = none := by
  induction l with
  | nil => rfl
  | cons e rest ih =>
    obtain ⟨k', ts, v⟩ := e
    by_cases h : k' = k <;> simp [eraseKey, h, lookupStore, ih]

lemma lookupStore_eraseKey_ne {k k' : K} (h : k' ≠ k) (l : List (K × ℚ × V)) :
    lookupStore k' (eraseKey k l) = lookupStore k' l := by
  induction l with
  | nil => rfl
  | cons e rest ih =>
    obtain ⟨k₀, ts, v⟩ := e
    by_cases h0 : k₀ = k
    · have hk : k₀ ≠ k' := by
        rintro rfl
        exact h h0
      simp [eraseKey, h0, lookupStore, hk, ih, Ne.symm h]
    · by_cases h1 : k₀ = k'
      · subst h1
        simp [eraseKey, lookupStore, h0, h]
      · simp [eraseKey, lookupStore, h0, h1, ih]

lemma mem_eraseKey {k : K} {e : K × ℚ × V} {l : List (K × ℚ × V)}
    (h : e ∈ eraseKey k l) : e ∈ l := by
  induction l with
  | nil => simp [eraseKey] at h
  | cons e0 rest ih =>
    obtain ⟨k₀, ts, v⟩ := e0
    by_cases h0 : k₀ = k
    · simp only [eraseKey, if_pos h0] at h
      exact List.mem_cons_of_mem _ (ih h)
    · simp only [eraseKey, if_neg h0, List.mem_cons] at h
      rcases h with h | h
      · exact h ▸ List.mem_cons_self _ _
      · exact List.mem_cons_of_mem _ (ih h)

lemma eraseKey_length_le (k : K) (l : List (K × ℚ × V)) :
    (eraseKey k l).length ≤ l.length := by
  induction l with
  | nil => simp [eraseKey]
  | cons e rest ih =>
    obtain ⟨k₀, ts, v⟩ := e
    by_cases h0 : k₀ = k <;> simp [eraseKey, h0] <;> omega

lemma eraseKey_length_lt {k : K} {l : List (K × ℚ × V)}
    (h : (lookupStore k l).isSome = true) : (eraseKey k l).length + 1 ≤ l.length := by
  induction l with
  | nil => simp [lookupStore] at h
  | cons e rest ih =>
    obtain ⟨k₀, ts, v⟩ := e
    by_cases h0 : k₀ = k
    · have := eraseKey_length_le k rest
      simp [eraseKey, h0]
      omega
    · simp only [lookupStore, if_neg h0] at h
      have := ih h
      simp [eraseKey, h0]
      omega

lemma lookupStore_append_none {k : K} {l1 : List (K × ℚ × V)}
    (h : lookupStore k l1 = none) (l2 : List (K × ℚ × V)) :
    lookupStore k (l1 ++ l2) = lookupStore k l2 := by
  induction l1 with
  | nil => simp
  | cons e rest ih =>
    obtain ⟨k₀, ts, v⟩ := e
    by_cases h0 : k₀ = k
    · simp [lookupStore, h0] at h
    · simp only [lookupStore, if_neg h0] at h
      simpa [lookupStore, h0] using ih h

lemma lookupStore_drop_none {k : K} {l : List (K × ℚ × V)}
    (h : lookupStore k l = none) (n : ℕ) : lookupStore k (l.drop n) = none := by
  induction l generalizing n with
  | nil => simp [lookupStore]
  | cons e rest ih =>
    obtain ⟨k₀, ts, v⟩ := e
    by_cases h0 : k₀ = k
    · simp [lookupStore, h0] at h
    · simp only [lookupStore, if_neg h0] at h
      match n with
      | 0 => simpa [lookupStore, h0] using h
      | n + 1 => simpa using ih h n

lemma evictLoop_eq_drop {E : Type} (m : ℕ) (l : List E) :
    evictLoop m l = l.drop (l.length - m) := by
  induction l with
  | nil => simp [evictLoop]
  | cons x rest ih =>
    simp only [evictLoop]
    by_cases h : m < (x :: rest).length
    · rw [if_pos h, ih]
      have h1 : (x :: rest).length - m = (rest.length - m) + 1 := by
        simp only [List.length_cons] at h ⊢
        omega
      rw [h1, List.drop_succ_cons]
    · rw [if_neg h]
      have h1 : (x :: rest).length - m = 0 := by
        simp only [List.length_cons] at h ⊢
        omega
      rw [h1, List.drop_zero]

lemma evictLoop_length {E : Type} (m : ℕ) (l : List E) :
    (evictLoop m l).length = min m l.length := by
  rw [evictLoop_eq_drop, List.length_drop]
  omega

lemma mem_evictLoop {E : Type} {m : ℕ} {l : List E} {e : E}
    (h : e ∈ evictLoop m l) : e ∈ l := by
  rw [evictLoop_eq_drop] at h
  exact List.mem_of_mem_drop h

lemma set_store_length (c : MemoryCache K V) (now : ℚ) (k : K) (v : V) :
    (c.set now k v).store.length ≤ c.max_size := by
  simp only [MemoryCache.set, evictLoop_length]
  exact min_le_left _ _

lemma get_store_length (c : MemoryCache K V) (now : ℚ) (k : K) :
    (c.get now k).2.store.length ≤ c.store.length := by
  unfold MemoryCache.get
  cases hl : lookupStore k c.store with
  | none => simp
  | some tv =>
    obtain ⟨ts, v⟩ := tv
    have hp : (lookupStore k c.store).isSome = true := by simp [hl]
    have h1 := eraseKey_length_lt hp
    cases httl : c.ttl with
    | none => simpa using h1
    | some T =>
      by_cases he : T < now - ts
      · simp only [if_pos he]
        exact le_trans (eraseKey_length_le k c.store) (by omega)
      · simp only [if_neg he]
        simpa using h1

lemma lookupStore_set_self (c : MemoryCache K V) (now : ℚ) (k : K) (v : V)
    (h : 1 ≤ c.max_size) : lookupStore k (c.set now k v).store = some (now, v) := by
  unfold MemoryCache.set
  set store1 := if (lookupStore k c.store).isSome then eraseKey k c.store
                else c.store with hs1
  have h1 : lookupStore k store1 = none := by
    by_cases hp : (lookupStore k c.store).isSome
    · simp [hs1, hp, lookupStore_eraseKey_self]
    · cases hq : lookupStore k c.store with
      | none => simp [hs1, hp, hq]
      | some tv => simp [hq] at hp
  simp only
  rw [evictLoop_eq_drop]
  have hn : (store1 ++ [(k, now, v)]).length - c.max_size ≤ store1.length := by
    simp only [List.length_append, List.length_singleton]
    omega
  rw [List.drop_append_of_le_length hn,
    lookupStore_append_none (lookupStore_drop_none h1 _)]
  simp [lookupStore]

lemma mem_set_other {c : MemoryCache K V} {now : ℚ} {k k' : K} {v v' : V}
    {ts : ℚ} (hne : k' ≠ k) (h : (k', ts, v') ∈ (c.set now k v).store) :
    (k', ts, v') ∈ c.store := by
  unfold MemoryCache.set at h
  simp only at h
  have := mem_evictLoop h
  rcases List.mem_append.mp this with h1 | h2
  · by_cases hp : (lookupStore k c.store).isSome
    · rw [if_pos hp] at h1
      exact mem_eraseKey h1
    · rwa [if_neg hp] at h1
  · simp only [List.mem_singleton, Prod.mk.injEq] at h2
    exact absurd h2.1 hne

lemma get_max_size (c : MemoryCache K V) (now : ℚ) (k : K) :
    (c.get now k).2.max_size = c.max_size := by
  unfold MemoryCache.get
  cases hl : lookupStore k c.store with
  | none => rfl
  | some tv =>
    obtain ⟨ts, v⟩ := tv
    cases c.ttl with
    | none => rfl
    | some T => by_cases h : T < now - ts <;> simp [h]

lemma cacheGet_miss (c : MemoryCache K V) (now : ℚ) (key : K)
    (h : lookupStore key c.store = none) :
    c.get now key = (none, { c with misses := c.misses + 1 }) := by
  unfold MemoryCache.get
  rw [h]

lemma cacheGet_expired (c : MemoryCache K V) (now : ℚ) (key : K) (ts : ℚ)
    (v : V) (T : ℚ) (hlk : lookupStore key c.store = some (ts, v))
    (httl : c.ttl = some T) (hexp : T < now - ts) :
    c.get now key =
      (none, { c with store := eraseKey key c.store, misses := c.misses + 1 }) := by
  simp only [MemoryCache.get, hlk, httl, if_pos hexp]

lemma cacheGet_hit (c : MemoryCache K V) (now : ℚ) (key : K) (ts : ℚ)
    (v : V) (hlk : lookupStore key c.store = some (ts, v))
    (hfresh : ∀ T, c.ttl = some T → now - ts ≤ T) :
    c.get now key =
      (some v, { c with store := eraseKey key c.store ++ [(key, ts, v)],
                        hits := c.hits + 1 }) := by
  cases httl : c.ttl with
  | none => simp only [MemoryCache.get, hlk, httl]
  | some T =>
    have h := hfresh T httl
    simp only [MemoryCache.get, hlk, httl, if_neg (not_lt.mpr h)]

end StoreLemmas

/-- Demo cache for the LRU scenario: `max_size = 2`, no TTL, `a` then `b`
inserted at `t=0` and `t=1`. -/
def demoCache2 : MemoryCache String ℕ :=
  ((MemoryCache.mk' String ℕ 2 none).set 0 "a" 10).set 1 "b" 20

/-- Demo cache for the TTL scenario: `ttl = 1`, `k ↦ 5` written at `t=0`. -/
def demoTtlCache : MemoryCache String ℕ :=
  (MemoryCache.mk' String ℕ 10 (some 1)).set 0 "k" 5

lemma demoCache2_eq : demoCache2 = ⟨2, none, [("a", 0, 10), ("b", 1, 20)], 0, 0⟩ := by
  decide

lemma demoTtlCache_eq : demoTtlCache = ⟨10, some 1, [("k", 0, 5)], 0, 0⟩ := by
  decide

/-! ### Helper lemmas about the key serialization -/

/-- The string contains no `'|'` separator byte. -/
def noSep (s : String) : Prop := '|' ∉ s.data

instance (s : String) : Decidable (noSep s) := by
  unfold noSep
  infer_instance

lemma sepSplit_inj : ∀ (l1 : List Char) {l2 r1 r2 : List Char},
    '|' ∉ l1 → '|' ∉ l2 → l1 ++ '|' :: r1 = l2 ++ '|' :: r2 →
    l1 = l2 ∧ r1 = r2 := by
  intro l1
  induction l1 with
  | nil =>
    intro l2 r1 r2 _ h2 he
    cases l2 with
    | nil => simpa using he
    | cons d ds =>
      simp only [List.nil_append, List.cons_append, List.cons.injEq] at he
      exact absurd (he.1 ▸ List.mem_cons_self d ds) h2
  | cons c cs ih =>
    intro l2 r1 r2 h1 h2 he
    cases l2 with
    | nil =>
      simp only [List.nil_append, List.cons_append, List.cons.injEq] at he
      exact absurd (he.1 ▸ List.mem_cons_self c cs) h1
    | cons d ds =>
      simp only [List.cons_append, List.cons.injEq] at he
      have h1' : '|' ∉ cs := fun hm => h1 (List.mem_cons_of_mem _ hm)
      have h2' : '|' ∉ ds := fun hm => h2 (List.mem_cons_of_mem _ hm)
      obtain ⟨hcs, hrs⟩ := ih h1' h2' he.2
      exact ⟨by rw [he.1, hcs], hrs⟩

lemma hashTextInput_data (m t th x : String) :
    (hashTextInput m t th x).data =
      m.data ++ '|' :: (t.data ++ '|' :: (("thr=" ++ th).data ++ '|' :: x.data)) := by
  simp [hashTextInput, String.data_append]

lemma hashTextInput_inj {m1 t1 th1 x1 m2 t2 th2 x2 : String}
    (hm1 : noSep m1) (hm2 : noSep m2) (ht1 : noSep t1) (ht2 : noSep t2)
    (hth1 : noSep th1) (hth2 : noSep th2)
    (he : hashTextInput m1 t1 th1 x1 = hashTextInput m2 t2 th2 x2) :
    m1 = m2 ∧ t1 = t2 ∧ th1 = th2 ∧ x1 = x2 := by
  have hdata : (hashTextInput m1 t1 th1 x1).data = (hashTextInput m2 t2 th2 x2).data := by
    rw [he]
  rw [hashTextInput_data, hashTextInput_data] at hdata
  have hthr1 : '|' ∉ ("thr=" ++ th1).data := by
    rw [String.data_append]
    intro hm
    rcases List.mem_append.mp hm with h | h
    · revert h
      decide
    · exact hth1 h
  have hthr2 : '|' ∉ ("thr=" ++ th2).data := by
    rw [String.data_append]
    intro hm
    rcases List.mem_append.mp hm with h | h
    · revert h
      decide
    · exact hth2 h
  obtain ⟨hm, hrest1⟩ := sepSplit_inj _ hm1 hm2 hdata
  obtain ⟨ht, hrest2⟩ := sepSplit_inj _ ht1 ht2 hrest1
  obtain ⟨hth, hx⟩ := sepSplit_inj _ hthr1 hthr2 hrest2
  refine ⟨String.ext hm, String.ext ht, ?_, String.ext hx⟩
  rw [String.data_append, String.data_append] at hth
  exact String.ext (List.append_cancel_left hth)

lemma taskType_toStr_noSep (t : TaskType) : noSep t.toStr := by
  cases t <;> decide

/-- Python `int(x)` agrees with the floor on nonnegative reals. -/
lemma pyInt_of_nonneg {q : ℚ} (h : 0 ≤ q) : pyInt q = ⌊q⌋ := if_pos h

/-! ### Claim theorems — rate limiter -/

/-- C3: the code does NOT implement "API key if present, else peer address,
else anonymous".  Because the Python conditional expression binds last,
`get_api_key(request) or request.client.host if request.client else "anon"`
is `(key or host) if client else "anon"`: a request that declares an API
key but has no network peer is bucketed as `"anon"`, not under its key. -/
theorem bucketId_keyed_without_peer_is_anon :
    bucketId (some "key-1") none = "anon" ∧ ("anon" : String) ≠ "key-1" := by
  exact ⟨rfl, by decide⟩

/-- C10: a rejected admission check (refilled tokens < 1) raises before the
`self.allowance[bucket] = ...` assignment, so the limiter state — every
bucket's `(tokens, lastRefill)` pair — is exactly what it was before the
call: no token is consumed and no refill clock advances. -/
theorem rateLimiter_reject_preserves_state (rl : RateLimiter) (enabled : Bool)
    (bucket : String) (now : ℚ) (r : ℤ)
    (h : (rl.check enabled bucket now).1 = .error r) :
    (rl.check enabled bucket now).2 = rl ∧
    ∀ b, lookupStore b (rl.check enabled bucket now).2.allowance =
      lookupStore b rl.allowance := by
  unfold RateLimiter.check at h ⊢
  by_cases he : enabled = false
  · rw [if_pos he] at h
    simp at h
  · rw [if_neg he] at h ⊢
    by_cases ht : refillTokens rl bucket now < 1
    · rw [if_pos ht]
      exact ⟨rfl, fun _ => rfl⟩
    · rw [if_neg ht] at h
      simp at h

/-- Witness for C10: with `rps=1` and a drained bucket, the check rejects
and the limiter state is unchanged. -/
theorem rateLimiter_reject_preserves_state_witness :
    (RateLimiter.check ⟨1, [("b", 0, 0)]⟩ true "b" 0).2 = ⟨1, [("b", 0, 0)]⟩ := by
  refine (rateLimiter_reject_preserves_state ⟨1, [("b", 0, 0)]⟩ true "b" 0 1 ?_).1
  norm_num [RateLimiter.check, refillTokens, lookupStore, pyInt]

/-- C4: each admission check refills
`tokens = min(capacity, tokens + (now - lastRefill) * rps)`; a refill below
1.0 rejects with a retry-after of `ceil(1.0 - tokens)` (at least 1) and an
accept consumes one token and persists `(tokens, now)`; with `rps = 1` two
immediate checks on one bucket accept then reject with retry-after ≥ 1.
The hypotheses state the bucket's stored pair and that the clock did not
run backwards (under which the code's `max(1, int(1.0 - tokens))` equals
the claimed `max(1, ceil(1.0 - tokens))`). -/
theorem rateLimiter_check_conformance (rl : RateLimiter) (bucket : String)
    (now tokens0 last : ℚ)
    (hlk : (lookupStore bucket rl.allowance).getD (rl.rps, now) = (tokens0, last))
    (hrps : 0 ≤ rl.rps) (htok : 0 ≤ tokens0) (hmono : last ≤ now) :
    refillTokens rl bucket now = min rl.rps (tokens0 + (now - last) * rl.rps)
    ∧ (refillTokens rl bucket now < 1 →
        rl.check true bucket now =
          (.error (max 1 ⌈(1 : ℚ) - refillTokens rl bucket now⌉), rl)
        ∧ 1 ≤ max 1 ⌈(1 : ℚ) - refillTokens rl bucket now⌉)
    ∧ (1 ≤ refillTokens rl bucket now →
        rl.check true bucket now =
          (.ok (),
            { rl with
                allowance :=
                  updateAllowance bucket
                    (refillTokens rl bucket now - 1, now) rl.allowance }))
    ∧ (∀ (b : String) (n : ℚ),
        (RateLimiter.check ⟨1, []⟩ true b n).1 = .ok ()
        ∧ ∃ r, ((RateLimiter.check ⟨1, []⟩ true b n).2.check true b n).1 = .error r
            ∧ 1 ≤ r) := by
  have hrefill : refillTokens rl bucket now = min rl.rps (tokens0 + (now - last) * rl.rps) := by
    unfold refillTokens
    rw [hlk]
  have htnn : 0 ≤ refillTokens rl bucket now := by
    rw [hrefill]
    exact le_min hrps (add_nonneg htok (mul_nonneg (sub_nonneg.mpr hmono) hrps))
  refine ⟨hrefill, ?_, ?_, ?_⟩
  · intro hlt
    have h1 : (0 : ℚ) < 1 - refillTokens rl bucket now := by linarith
    have h2 : (1 : ℚ) - refillTokens rl bucket now ≤ 1 := by linarith
    have hceil : ⌈(1 : ℚ) - refillTokens rl bucket now⌉ = 1 := by
      refine le_antisymm (Int.ceil_le.mpr (by exact_mod_cast h2)) ?_
      have := Int.lt_ceil.mpr (show ((0 : ℤ) : ℚ) < 1 - refillTokens rl bucket now by
        exact_mod_cast h1)
      omega
    have hfloor : pyInt (1 - refillTokens rl bucket now) ≤ 1 := by
      rw [pyInt_of_nonneg (le_of_lt h1)]
      calc ⌊(1 : ℚ) - refillTokens rl bucket now⌋
          ≤ ⌈(1 : ℚ) - refillTokens rl bucket now⌉ := Int.floor_le_ceil _
        _ = 1 := hceil
    constructor
    · unfold RateLimiter.check
      rw [if_neg (by simp), if_pos hlt, hceil]
      have : max 1 (pyInt (1 - refillTokens rl bucket now)) = 1 :=
        max_eq_left hfloor
      rw [this]
      norm_num
    · exact le_max_left _ _
  · intro hge
    unfold RateLimiter.check
    rw [if_neg (by simp), if_neg (not_lt.mpr hge)]
  · intro b n
    constructor
    · norm_num [RateLimiter.check, refillTokens, lookupStore]
    · refine ⟨1, ?_, le_refl 1⟩
      norm_num [RateLimiter.check, refillTokens, lookupStore, updateAllowance, pyInt]

/-- Witness for C4: a fresh bucket with `rps = 1` accepts its first check. -/
theorem rateLimiter_check_conformance_witness :
    (RateLimiter.check ⟨1, []⟩ true "b" 5).1 = .ok () := by
  have h := rateLimiter_check_conformance ⟨1, []⟩ "b" 5 1 5 rfl (by norm_num)
    (by norm_num) (by norm_num)
  have h2 := h.2.2.1 (by norm_num [refillTokens, lookupStore])
  rw [h2]

/-! ### Claim theorems — cache -/

/-- C5: a successful `get` moves the entry to the most-recently-used (back)
position keeping its stored insertion timestamp, and `set` evicts
least-recently-used entries while the size exceeds `max_size`; in
particular with `max_size = 2`, inserting `a` then `b`, reading `a`, then
inserting `c` evicts `b` and keeps `a` (with its original timestamp) and
`c`. -/
theorem cache_get_refreshes_lru_not_timestamp {K V : Type} [DecidableEq K]
    (c : MemoryCache K V) (now : ℚ) (key : K) (ts : ℚ) (v : V)
    (hlk : lookupStore key c.store = some (ts, v))
    (hfresh : ∀ T, c.ttl = some T → now - ts ≤ T) :
    c.get now key =
      (some v, { c with store := eraseKey key c.store ++ [(key, ts, v)],
                        hits := c.hits + 1 })
    ∧ (demoCache2.get 2 "a").1 = some 10
    ∧ lookupStore "a" (demoCache2.get 2 "a").2.store = some (0, 10)
    ∧ lookupStore "b" ((demoCache2.get 2 "a").2.set 3 "c" 30).store = none
    ∧ lookupStore "a" ((demoCache2.get 2 "a").2.set 3 "c" 30).store = some (0, 10)
    ∧ lookupStore "c" ((demoCache2.get 2 "a").2.set 3 "c" 30).store = some (3, 30) := by
  have hget : demoCache2.get 2 "a" =
      (some 10, ⟨2, none, [("b", 1, 20), ("a", 0, 10)], 1, 0⟩) := by
    rw [demoCache2_eq]
    rw [cacheGet_hit _ 2 "a" 0 10 (by decide) (by intro T hT; cases hT)]
    decide
  refine ⟨cacheGet_hit c now key ts v hlk hfresh, ?_, ?_, ?_, ?_, ?_⟩ <;>
    rw [hget] <;> decide

/-- Witness for C5: the read of `a` in the scenario goes through the general
refresh equation. -/
theorem cache_get_refreshes_lru_witness :
    (demoCache2.get 2 "a").1 = some 10 := by
  have h := (cache_get_refreshes_lru_not_timestamp demoCache2 2 "a" 0 10
    (by rw [demoCache2_eq]; decide)
    (by rw [demoCache2_eq]; intro T hT; cases hT)).1
  rw [h]

/-- C6: with a TTL configured, a `get` of an entry older than the TTL
returns absence, removes the entry and counts a miss; a `get` within the
TTL returns the value and counts a hit; concretely with `ttl = 1`, a value
written at `t=0` is present at `t=0.5` and absent (removed, counted as a
miss) at `t=2`. -/
theorem cache_get_ttl_expiry {K V : Type} [DecidableEq K]
    (c : MemoryCache K V) (now : ℚ) (key : K) (ts : ℚ) (v : V) (T : ℚ)
    (hlk : lookupStore key c.store = some (ts, v)) (httl : c.ttl = some T) :
    (T < now - ts →
      c.get now key =
        (none, { c with store := eraseKey key c.store, misses := c.misses + 1 }))
    ∧ (now - ts ≤ T →
      c.get now key =
        (some v, { c with store := eraseKey key c.store ++ [(key, ts, v)],
                          hits := c.hits + 1 }))
    ∧ (demoTtlCache.get (1/2) "k").1 = some 5
    ∧ ((demoTtlCache.get (1/2) "k").2.get 2 "k").1 = none
    ∧ lookupStore "k" ((demoTtlCache.get (1/2) "k").2.get 2 "k").2.store = none
    ∧ ((demoTtlCache.get (1/2) "k").2.get 2 "k").2.misses
        = (demoTtlCache.get (1/2) "k").2.misses + 1 := by
  have hget1 : demoTtlCache.get (1/2) "k" =
      (some 5, ⟨10, some 1, [("k", 0, 5)], 1, 0⟩) := by
    rw [demoTtlCache_eq]
    rw [cacheGet_hit _ (1/2) "k" 0 5 (by decide) ?_]
    · decide
    · intro T' hT'
      obtain rfl : (1 : ℚ) = T' := by simpa using hT'
      norm_num
  have hget2 : (MemoryCache.get ⟨10, some 1, [("k", 0, 5)], 1, 0⟩ 2 "k") =
      (none, ⟨10, some 1, [], 1, 1⟩) := by
    rw [cacheGet_expired _ 2 "k" 0 5 1 (by decide) rfl (by norm_num)]
    decide
  refine ⟨?_, ?_, ?_, ?_, ?_, ?_⟩
  · intro hexp
    exact cacheGet_expired c now key ts v T hlk httl hexp
  · intro hok
    exact cacheGet_hit c now key ts v hlk
      (by intro T' hT'; rw [httl] at hT'; cases hT'; exact hok)
  · rw [hget1]
  · rw [hget1, hget2]
  · rw [hget1, hget2]
    rfl
  · rw [hget1, hget2]

/-- Witness for C6: the expired read of the scenario goes through the
general expiry equation. -/
theorem cache_get_ttl_expiry_witness :
    (demoTtlCache.get 2 "k").1 = none := by
  have h := (cache_get_ttl_expiry demoTtlCache 2 "k" 0 5 1
    (by rw [demoTtlCache_eq]; decide) (by rw [demoTtlCache_eq])).1 (by norm_num)
  rw [h]

/-- The store invariant asserted by the claim: every key present in the
store is within its TTL (when configured), and the store is within
`max_size`. -/
def cacheClaimedInvariant {K V : Type} [DecidableEq K]
    (c : MemoryCache K V) (now : ℚ) : Prop :=
  (∀ (k : K) (ts : ℚ) (v : V) (T : ℚ),
      lookupStore k c.store = some (ts, v) → c.ttl = some T → now - ts ≤ T)
  ∧ c.store.length ≤ c.max_size

/-- C7 counterexample: expiry is lazy — entries are only removed when they
are themselves looked up — so a state reached by two plain `set`s (write
`k1` at `t=0` with `ttl=1`, write `k2` at `t=5`) still holds `k1` at age 5:
"a key present in the cache is never older than its TTL" is false as a
store invariant. -/
theorem cache_stale_entry_in_store :
    ¬ cacheClaimedInvariant
        (((MemoryCache.mk' String ℕ 10 (some 1)).set 0 "k1" 1).set 5 "k2" 2) 5 := by
  intro hinv
  have h := hinv.1 "k1" 0 1 1 (by decide) (by decide)
  norm_num at h

/-- C7 (amended): the TTL bound holds observationally — a `get` never
returns an entry older than its TTL (stale entries may linger in the store
until they are looked up) — and the size bound holds on the store: every
`set` leaves at most `max_size` entries (eviction runs immediately after
insertion) and a `get` never grows the store. -/
theorem cache_lazy_ttl_and_size_bound {K V : Type} [DecidableEq K]
    (c : MemoryCache K V) (now : ℚ) (key : K) (v : V) :
    (∀ (w : V) (T : ℚ), c.ttl = some T → (c.get now key).1 = some w →
        ∃ ts, lookupStore key c.store = some (ts, w) ∧ now - ts ≤ T)
    ∧ (c.set now key v).store.length ≤ c.max_size
    ∧ (c.get now key).2.store.length ≤ c.store.length := by
  refine ⟨?_, set_store_length c now key v, get_store_length c now key⟩
  intro w T httl hget
  cases hlk : lookupStore key c.store with
  | none =>
    rw [cacheGet_miss c now key hlk] at hget
    simp at hget
  | some tv =>
    obtain ⟨ts, v0⟩ := tv
    by_cases hexp : T < now - ts
    · rw [cacheGet_expired c now key ts v0 T hlk httl hexp] at hget
      simp at hget
    · rw [cacheGet_hit c now key ts v0 hlk
        (by intro T' h'; rw [httl] at h'; cases h'; exact not_lt.mp hexp)] at hget
      have hv : v0 = w := Option.some.inj hget
      subst hv
      exact ⟨ts, rfl, not_lt.mp hexp⟩

/-- Witness for C7 (amended): a fresh read within the TTL is backed by a
store entry within its TTL. -/
theorem cache_lazy_ttl_and_size_bound_witness :
    ∃ ts, lookupStore "k" demoTtlCache.store = some (ts, 5) ∧ (1/2 : ℚ) - ts ≤ 1 := by
  refine (cache_lazy_ttl_and_size_bound demoTtlCache (1/2) "k" 7).1 5 1
    (by rw [demoTtlCache_eq]) ?_
  rw [demoTtlCache_eq]
  have hfresh : ∀ T',
      (⟨10, some 1, [("k", 0, 5)], 0, 0⟩ : MemoryCache String ℕ).ttl = some T' →
      (1/2 : ℚ) - 0 ≤ T' := by
    intro T' hT'
    obtain rfl : (1 : ℚ) = T' := by simpa using hT'
    norm_num
  rw [cacheGet_hit _ (1/2) "k" 0 5 (by decide) hfresh]

/-! ### Claim theorems — cache keys -/

/-- C2 counterexample: the serialization digested by `hash_text` joins the
fields with a bare `"|"` byte, so two inputs that differ in the backend
identifier (and task mode) can produce the very same byte string — hence
the identical `blake2b` key, deterministically, not with mere hash-collision
probability: `("a|b", "c")` versus `("a", "b|c")` with equal text and
threshold. -/
theorem hash_text_separator_collision :
    hash_text (fun _ => "0") "a|b" "c" "t" none
      = hash_text (fun _ => "0") "a" "b|c" "t" none
    ∧ ("a|b", "c") ≠ (("a", "b|c") : String × String) := by
  exact ⟨by decide, by decide⟩

/-- C2 (amended): the key function is pure (a mathematical function of
backend, task mode, threshold and text — equal inputs give the identical
key), and distinct inputs give distinct serialized inputs (hence distinct
keys up to genuine `blake2b` collision) *provided* the backend identifier
and task mode contain no `'|'` separator byte and thresholds are compared
through their rendered marker (`"none"` or the `"%.10g"` rendering `fmt`);
the rendered markers never contain `'|'`. -/
theorem hash_text_pure_and_injective (fmt : ℚ → String)
    (m1 t1 x1 m2 t2 x2 : String) (th1 th2 : Option ℚ)
    (hm1 : noSep m1) (hm2 : noSep m2) (ht1 : noSep t1) (ht2 : noSep t2)
    (hf1 : noSep (thrMarker fmt th1)) (hf2 : noSep (thrMarker fmt th2)) :
    hash_text fmt m1 t1 x1 th1 = hash_text fmt m2 t2 x2 th2 ↔
      (m1 = m2 ∧ t1 = t2 ∧ thrMarker fmt th1 = thrMarker fmt th2 ∧ x1 = x2) := by
  constructor
  · intro he
    exact hashTextInput_inj hm1 hm2 ht1 ht2 hf1 hf2 he
  · rintro ⟨rfl, rfl, hth, rfl⟩
    unfold hash_text hashTextInput
    rw [hth]

/-- Witness for C2 (amended): two requests differing only in the backend
identifier get different keys. -/
theorem hash_text_pure_and_injective_witness :
    hash_text (fun _ => "0") "vader" "sentiment" "hi" none
      ≠ hash_text (fun _ => "0") "distilbert" "sentiment" "hi" none := by
  intro he
  have h := (hash_text_pure_and_injective (fun _ => "0") "vader" "sentiment" "hi"
    "distilbert" "sentiment" "hi" none none (by decide) (by decide) (by decide)
    (by decide) (by decide) (by decide)).mp he
  exact absurd h.1 (by decide)

/-! ### Claim theorems — batch path -/

/-- C8: `analyze_batch` validates the batch size and every item's length
before the batch-cache lookup and before any dispatch; a violation rejects
the whole batch with an error, leaves both caches untouched, issues no
native batch dispatch and no per-item analysis, and the outcome does not
depend on the backend functions at all (nothing was dispatched). -/
theorem analyzeBatch_rejects_before_dispatch (st : Settings) (fmt : ℚ → String)
    (bk : BackendFn) (batchFn : BatchFn)
    (cache : Option (MemoryCache String SentimentResponse))
    (bcache : Option (MemoryCache String BatchSentimentResponse))
    (tGet tSet : ℚ) (wallMs : ℤ) (req : BatchSentimentRequest)
    (hviol : st.BATCH_SIZE_LIMIT < req.texts.length
      ∨ ∃ t ∈ req.texts, st.TEXT_LENGTH_LIMIT < t.length) :
    (∃ e, (analyzeBatch st fmt bk batchFn cache bcache tGet tSet wallMs req).result
        = .error e)
    ∧ (analyzeBatch st fmt bk batchFn cache bcache tGet tSet wallMs req).cache = cache
    ∧ (analyzeBatch st fmt bk batchFn cache bcache tGet tSet wallMs req).bcache = bcache
    ∧ (analyzeBatch st fmt bk batchFn cache bcache tGet tSet wallMs req).batchDispatches = []
    ∧ (analyzeBatch st fmt bk batchFn cache bcache tGet tSet wallMs req).perItemCalls = 0
    ∧ ∀ (bk' : BackendFn) (batchFn' : BatchFn),
        analyzeBatch st fmt bk' batchFn' cache bcache tGet tSet wallMs req
          = analyzeBatch st fmt bk batchFn cache bcache tGet tSet wallMs req := by
  have hall : ∀ (bkx : BackendFn) (bfx : BatchFn),
      analyzeBatch st fmt bkx bfx cache bcache tGet tSet wallMs req =
        if st.BATCH_SIZE_LIMIT < req.texts.length then
          ⟨.error ("Batch size " ++ toString req.texts.length ++ " exceeds limit "
            ++ toString st.BATCH_SIZE_LIMIT ++ "."), cache, bcache, [], 0⟩
        else ⟨.error "Text too long", cache, bcache, [], 0⟩ := by
    intro bkx bfx
    by_cases hsz : st.BATCH_SIZE_LIMIT < req.texts.length
    · unfold analyzeBatch
      rw [if_pos hsz, if_pos hsz]
    · have hany : req.texts.any (fun t => st.TEXT_LENGTH_LIMIT < t.length) = true := by
        rcases hviol with h | ⟨t, ht, hlen⟩
        · exact absurd h hsz
        · exact List.any_eq_true.mpr ⟨t, ht, decide_eq_true hlen⟩
      unfold analyzeBatch
      rw [if_neg hsz, if_neg hsz, if_pos hany]
  obtain ⟨msg, hmsg⟩ : ∃ msg,
      analyzeBatch st fmt bk batchFn cache bcache tGet tSet wallMs req
        = ⟨.error msg, cache, bcache, [], 0⟩ := by
    rw [hall bk batchFn]
    by_cases hsz : st.BATCH_SIZE_LIMIT < req.texts.length
    · exact ⟨_, by rw [if_pos hsz]⟩
    · exact ⟨_, by rw [if_neg hsz]⟩
  refine ⟨⟨msg, by rw [hmsg]⟩, by rw [hmsg], by rw [hmsg], by rw [hmsg], by rw [hmsg],
    fun bk' bf' => by rw [hall bk' bf', hall bk batchFn]⟩

/-- Witness for C8: a three-item batch against a limit of 2 is rejected with
no dispatch. -/
theorem analyzeBatch_rejects_witness :
    (analyzeBatch ⟨"vader", true, 2, 5, true⟩ (fun _ => "0")
        (fun _ _ _ => .error "down") (fun _ _ _ => .error "down") none none 0 0 0
        ⟨["aaa", "bbb", "ccc"], none, .sentiment, none⟩).batchDispatches = []
    ∧ (analyzeBatch ⟨"vader", true, 2, 5, true⟩ (fun _ => "0")
        (fun _ _ _ => .error "down") (fun _ _ _ => .error "down") none none 0 0 0
        ⟨["aaa", "bbb", "ccc"], none, .sentiment, none⟩).perItemCalls = 0 := by
  have h := analyzeBatch_rejects_before_dispatch ⟨"vader", true, 2, 5, true⟩
    (fun _ => "0") (fun _ _ _ => .error "down") (fun _ _ _ => .error "down")
    none none 0 0 0 ⟨["aaa", "bbb", "ccc"], none, .sentiment, none⟩
    (Or.inl (by decide))
  exact ⟨h.2.2.2.1, h.2.2.2.2.1⟩

lemma analyzeBatchDispatch_native_eq (st : Settings) (fmt : ℚ → String)
    (bk : BackendFn) (batchFn : BatchFn)
    (cache : Option (MemoryCache String SentimentResponse))
    (bc0 : Option (MemoryCache String BatchSentimentResponse))
    (ck0 : Option String) (tGet tSet : ℚ) (wallMs : ℤ)
    (req : BatchSentimentRequest) (model_choice : String)
    (pairs : List (String × ℚ)) (total : ℤ)
    (hmc : model_choice = "distilbert" ∨ model_choice = "distilbert-sst-2")
    (hb : batchFn model_choice req.task_type.toStr req.texts = .ok (pairs, total)) :
    analyzeBatchDispatch st fmt bk batchFn cache bc0 ck0 tGet tSet wallMs req
        model_choice =
      { result := .ok ⟨pairs.map (nativeItem model_choice req.task_type
            (max 1 (pyInt ((total : ℚ) / (max 1 pairs.length : ℕ))))), total,
          (pairs.map (nativeItem model_choice req.task_type
            (max 1 (pyInt ((total : ℚ) / (max 1 pairs.length : ℕ)))))).length⟩
        cache := cache
        bcache := match bc0, ck0 with
          | some bc, some k => some (bc.set tSet k
              ⟨pairs.map (nativeItem model_choice req.task_type
                  (max 1 (pyInt ((total : ℚ) / (max 1 pairs.length : ℕ))))), total,
                (pairs.map (nativeItem model_choice req.task_type
                  (max 1 (pyInt ((total : ℚ) / (max 1 pairs.length : ℕ)))))).length⟩)
          | b, _ => b
        batchDispatches := [req.texts]
        perItemCalls := 0 } := by
  have hlow : lowerStr model_choice = model_choice := by
    rcases hmc with rfl | rfl <;> decide
  have hcond : lowerStr model_choice = "distilbert"
      ∨ lowerStr model_choice = "distilbert-sst-2" := by
    rw [hlow]
    exact hmc
  unfold analyzeBatchDispatch
  rw [if_pos hcond, hlow, hb]

/-- C9: on the native-batching path (DistilBERT ids) `analyze_batch` issues
exactly one dispatch carrying the full ordered text list and no per-item
dispatches; when the backend returns `pairs` (N items) with measured time
`total`, the result has `results = pairs` mapped in order into responses,
`items_processed = N`, `total_processing_time_ms = total`, and every item's
processing time is `max(1, int(total / max(1, N)))`, which for a
nonnegative measurement is the claimed floor division with minimum 1 ms. -/
theorem analyzeBatch_native_single_dispatch (st : Settings) (fmt : ℚ → String)
    (bk : BackendFn) (batchFn : BatchFn)
    (cache : Option (MemoryCache String SentimentResponse))
    (bcache : Option (MemoryCache String BatchSentimentResponse))
    (tGet tSet : ℚ) (wallMs : ℤ) (req : BatchSentimentRequest)
    (pairs : List (String × ℚ)) (total : ℤ)
    (hsz : req.texts.length ≤ st.BATCH_SIZE_LIMIT)
    (hlen : ∀ t ∈ req.texts, t.length ≤ st.TEXT_LENGTH_LIMIT)
    (hmc : selectBackend st req.model = "distilbert"
      ∨ selectBackend st req.model = "distilbert-sst-2")
    (hmiss : ∀ bc, bcache = some bc →
      (bc.get tGet (hash_texts fmt (selectBackend st req.model)
        req.task_type.toStr req.texts req.threshold)).1 = none)
    (hb : batchFn (selectBackend st req.model) req.task_type.toStr req.texts
      = .ok (pairs, total)) :
    (analyzeBatch st fmt bk batchFn cache bcache tGet tSet wallMs req).batchDispatches
        = [req.texts]
    ∧ (analyzeBatch st fmt bk batchFn cache bcache tGet tSet wallMs req).perItemCalls = 0
    ∧ (analyzeBatch st fmt bk batchFn cache bcache tGet tSet wallMs req).cache = cache
    ∧ (analyzeBatch st fmt bk batchFn cache bcache tGet tSet wallMs req).result
        = .ok ⟨pairs.map (nativeItem (selectBackend st req.model) req.task_type
              (max 1 (pyInt ((total : ℚ) / (max 1 pairs.length : ℕ))))), total,
            pairs.length⟩
    ∧ (∀ resp, (analyzeBatch st fmt bk batchFn cache bcache tGet tSet wallMs req).result
          = .ok resp →
        resp.results.length = pairs.length ∧ resp.items_processed = pairs.length
        ∧ resp.total_processing_time_ms = total)
    ∧ (0 ≤ total →
        max 1 (pyInt ((total : ℚ) / (max 1 pairs.length : ℕ)))
          = max 1 ⌊(total : ℚ) / (max 1 pairs.length : ℕ)⌋) := by
  have hsz' : ¬ st.BATCH_SIZE_LIMIT < req.texts.length := not_lt.mpr hsz
  have hany : ¬ (req.texts.any (fun t => st.TEXT_LENGTH_LIMIT < t.length) = true) := by
    rw [List.any_eq_true]
    rintro ⟨t, ht, hl⟩
    exact absurd (of_decide_eq_true hl) (not_lt.mpr (hlen t ht))
  obtain ⟨bc0, ck0, heq⟩ : ∃ bc0 ck0,
      analyzeBatch st fmt bk batchFn cache bcache tGet tSet wallMs req
        = analyzeBatchDispatch st fmt bk batchFn cache bc0 ck0 tGet tSet wallMs req
            (selectBackend st req.model) := by
    cases hbc : bcache with
    | none =>
      refine ⟨none, none, ?_⟩
      unfold analyzeBatch
      rw [if_neg hsz', if_neg hany]
    | some bc =>
      have hm := hmiss bc hbc
      cases hg : bc.get tGet (hash_texts fmt (selectBackend st req.model)
          req.task_type.toStr req.texts req.threshold) with
      | mk o bc1 =>
        rw [hg] at hm
        simp only at hm
        subst hm
        refine ⟨some bc1,
          some (hash_texts fmt (selectBackend st req.model)
            req.task_type.toStr req.texts req.threshold), ?_⟩
        unfold analyzeBatch
        rw [if_neg hsz', if_neg hany]
        dsimp only
        rw [hg]
  have hnat := analyzeBatchDispatch_native_eq st fmt bk batchFn cache bc0 ck0
    tGet tSet wallMs req (selectBackend st req.model) pairs total hmc hb
  rw [heq, hnat]
  refine ⟨rfl, rfl, rfl, ?_, ?_, ?_⟩
  · simp
  · intro resp hresp
    simp only [Except.ok.injEq] at hresp
    subst hresp
    exact ⟨by simp, by simp, rfl⟩
  · intro htot
    have hpos : (0 : ℚ) ≤ (total : ℚ) / (max 1 pairs.length : ℕ) := by
      apply div_nonneg
      · exact_mod_cast htot
      · positivity
    rw [pyInt_of_nonneg hpos]

/-- Witness for C9: a two-item batch against the DistilBERT backend issues
one native dispatch with the full list and no per-item calls. -/
theorem analyzeBatch_native_single_dispatch_witness :
    (analyzeBatch ⟨"distilbert", true, 32, 2500, true⟩ (fun _ => "0")
        (fun _ _ _ => .error "unused")
        (fun _ _ _ => .ok ([("positive", (1 : ℚ)), ("negative", 1)], 6))
        none none 0 0 0
        ⟨["good", "bad"], none, .sentiment, none⟩).batchDispatches
      = [["good", "bad"]] := by
  exact (analyzeBatch_native_single_dispatch ⟨"distilbert", true, 32, 2500, true⟩
    (fun _ => "0") (fun _ _ _ => .error "unused")
    (fun _ _ _ => .ok ([("positive", (1 : ℚ)), ("negative", 1)], 6))
    none none 0 0 0 ⟨["good", "bad"], none, .sentiment, none⟩
    [("positive", (1 : ℚ)), ("negative", 1)] 6
    (by decide) (by intro t ht; fin_cases ht <;> decide)
    (Or.inl (by decide))
    (by intro bc h; cases h) rfl).1

/-! ### Claim theorems — single-item fallback policy -/

/-- C1: on a cache miss, (1) a primary success is cached under the key
computed for the originally resolved backend; (2) a primary failure retries
exactly once against vader with task mode forced to `"sentiment"` when
graceful degradation is on and the resolved backend is not vader (the
fallback's own failure propagating), and otherwise the original error
propagates unrecovered; (3) every success (primary or fallback) is written
at the original key — present there afterwards, with no binding created at
any other key; (4) the fallback backend's own key differs from the original
key (for separator-free identifiers), so the result is never stored under
it. -/
theorem analyze_fallback_policy (st : Settings) (fmt : ℚ → String)
    (bk : BackendFn) (c : MemoryCache String SentimentResponse)
    (tGet tSet : ℚ) (req : SentimentRequest)
    (hmiss : (c.get tGet (hash_text fmt (selectBackend st req.model)
      req.task_type.toStr req.text req.threshold)).1 = none) :
    (∀ r, analyzeWithModel bk (selectBackend st req.model) req.text req.task_type
        = .ok r →
      analyze st fmt bk (some c) tGet tSet req
        = .ok (r, some (((c.get tGet (hash_text fmt (selectBackend st req.model)
            req.task_type.toStr req.text req.threshold)).2).set tSet
            (hash_text fmt (selectBackend st req.model)
              req.task_type.toStr req.text req.threshold) r)))
    ∧ (∀ e, analyzeWithModel bk (selectBackend st req.model) req.text req.task_type
        = .error e →
      (st.GRACEFUL_DEGRADATION = true → selectBackend st req.model ≠ "vader" →
        (∀ e2, bk "vader" "sentiment" req.text = .error e2 →
          analyze st fmt bk (some c) tGet tSet req = .error e2)
        ∧ (∀ l cf ms, bk "vader" "sentiment" req.text = .ok (l, cf, ms) →
          analyze st fmt bk (some c) tGet tSet req
            = .ok (⟨"vader", l, cf, ms, .sentiment⟩,
                some (((c.get tGet (hash_text fmt (selectBackend st req.model)
                    req.task_type.toStr req.text req.threshold)).2).set tSet
                  (hash_text fmt (selectBackend st req.model)
                    req.task_type.toStr req.text req.threshold)
                  ⟨"vader", l, cf, ms, .sentiment⟩))))
      ∧ (st.GRACEFUL_DEGRADATION = false ∨ selectBackend st req.model = "vader" →
          analyze st fmt bk (some c) tGet tSet req = .error e))
    ∧ (∀ r c', analyze st fmt bk (some c) tGet tSet req = .ok (r, c') →
        c' = some (((c.get tGet (hash_text fmt (selectBackend st req.model)
            req.task_type.toStr req.text req.threshold)).2).set tSet
            (hash_text fmt (selectBackend st req.model)
              req.task_type.toStr req.text req.threshold) r)
        ∧ (1 ≤ c.max_size →
            lookupStore (hash_text fmt (selectBackend st req.model)
                req.task_type.toStr req.text req.threshold)
              (((c.get tGet (hash_text fmt (selectBackend st req.model)
                  req.task_type.toStr req.text req.threshold)).2).set tSet
                (hash_text fmt (selectBackend st req.model)
                  req.task_type.toStr req.text req.threshold) r).store
              = some (tSet, r))
        ∧ (∀ k' ts v, k' ≠ hash_text fmt (selectBackend st req.model)
              req.task_type.toStr req.text req.threshold →
            (k', ts, v) ∈ (((c.get tGet (hash_text fmt (selectBackend st req.model)
                req.task_type.toStr req.text req.threshold)).2).set tSet
              (hash_text fmt (selectBackend st req.model)
                req.task_type.toStr req.text req.threshold) r).store →
            (k', ts, v) ∈ ((c.get tGet (hash_text fmt (selectBackend st req.model)
              req.task_type.toStr req.text req.threshold)).2).store))
    ∧ (noSep (selectBackend st req.model) → noSep (thrMarker fmt req.threshold) →
        selectBackend st req.model ≠ "vader" →
        hash_text fmt "vader" TaskType.sentiment.toStr req.text req.threshold
          ≠ hash_text fmt (selectBackend st req.model)
              req.task_type.toStr req.text req.threshold) := by
  cases hg : c.get tGet (hash_text fmt (selectBackend st req.model)
      req.task_type.toStr req.text req.threshold) with
  | mk o c1 =>
    rw [hg] at hmiss
    simp only at hmiss
    subst hmiss
    have hred : analyze st fmt bk (some c) tGet tSet req =
        match dispatchWithFallback st bk (selectBackend st req.model)
            req.text req.task_type with
        | .error e => .error e
        | .ok r => .ok (r, some (c1.set tSet
            (hash_text fmt (selectBackend st req.model)
              req.task_type.toStr req.text req.threshold) r)) := by
      unfold analyze
      dsimp only
      rw [hg]
    refine ⟨?_, ?_, ?_, ?_⟩
    · intro r hr
      rw [hred]
      unfold dispatchWithFallback
      rw [hr]
    · intro e he
      constructor
      · intro hgr hnv
        constructor
        · intro e2 he2
          rw [hred]
          unfold dispatchWithFallback
          rw [he]
          dsimp only
          rw [if_pos ⟨hgr, hnv⟩, he2]
        · intro l cf ms hok
          rw [hred]
          unfold dispatchWithFallback
          rw [he]
          dsimp only
          rw [if_pos ⟨hgr, hnv⟩, hok]
      · intro hcase
        rw [hred]
        unfold dispatchWithFallback
        rw [he]
        dsimp only
        have hneg : ¬ (st.GRACEFUL_DEGRADATION = true
            ∧ selectBackend st req.model ≠ "vader") := by
          rcases hcase with h | h
          · rintro ⟨h1, _⟩
            rw [h] at h1
            exact Bool.false_ne_true h1
          · rintro ⟨_, h2⟩
            exact h2 h
        rw [if_neg hneg]
    · intro r c' hok
      rw [hred] at hok
      cases hd : dispatchWithFallback st bk (selectBackend st req.model)
          req.text req.task_type with
      | error e =>
        rw [hd] at hok
        simp at hok
      | ok r0 =>
        rw [hd] at hok
        simp only [Except.ok.injEq, Prod.mk.injEq] at hok
        obtain ⟨rfl, rfl⟩ := hok
        refine ⟨rfl, ?_, ?_⟩
        · intro hms
          have hmax : c1.max_size = c.max_size := by
            have h := get_max_size c tGet (hash_text fmt (selectBackend st req.model)
              req.task_type.toStr req.text req.threshold)
            rw [hg] at h
            exact h
          exact lookupStore_set_self c1 tSet _ r0 (hmax ▸ hms)
        · intro k' ts v hne hm
          exact mem_set_other hne hm
    · intro hns hth hnv heq
      unfold hash_text at heq
      have h := hashTextInput_inj (by decide) hns
        (taskType_toStr_noSep TaskType.sentiment)
        (taskType_toStr_noSep req.task_type) hth hth heq
      exact hnv h.1.symm

/-- Witness for C1: with the default backend resolving to distilbert, a
failing distilbert dispatch and graceful degradation on, `analyze` returns
the vader fallback result and stores it under the distilbert key. -/
theorem analyze_fallback_policy_witness :
    analyze ⟨"distilbert", true, 32, 2500, false⟩ (fun _ => "0")
        (fun m _ _ => if m = "vader" then .ok ("positive", 1, 1) else .error "boom")
        (some (MemoryCache.mk' String SentimentResponse 4 none)) 0 0
        ⟨"hi", none, .sentiment, none⟩
      = .ok (⟨"vader", "positive", 1, 1, .sentiment⟩,
          some ((((MemoryCache.mk' String SentimentResponse 4 none).get 0
              (hash_text (fun _ => "0")
                (selectBackend ⟨"distilbert", true, 32, 2500, false⟩ none)
                TaskType.sentiment.toStr "hi" none)).2).set 0
            (hash_text (fun _ => "0")
              (selectBackend ⟨"distilbert", true, 32, 2500, false⟩ none)
              TaskType.sentiment.toStr "hi" none)
            ⟨"vader", "positive", 1, 1, .sentiment⟩)) := by
  have h := analyze_fallback_policy ⟨"distilbert", true, 32, 2500, false⟩
    (fun _ => "0")
    (fun m _ _ => if m = "vader" then .ok ("positive", 1, 1) else .error "boom")
    (MemoryCache.mk' String SentimentResponse 4 none) 0 0
    ⟨"hi", none, .sentiment, none⟩ rfl
  exact ((h.2.1 "boom" rfl).1 rfl (by decide)).2 "positive" 1 1 rfl

end QuickTone
